import Mathlib

/-!
Shallow embedding of the sentiment-based product recommendation engine
(`model.py` of the ebuss capstone deployment): the popularity fallback
`_popularity_fallback`, the item-based candidate generator
`get_top20_products`, and the blended re-ranker `get_final_recommendations`.

Modelling conventions:
* Product identifiers and usernames are `String`s; all numeric cells are
  rationals (`ℚ`), with a pandas `NaN` (or a missing value) rendered as
  `none : Option ℚ`.
* A pandas `DataFrame` becomes a list of rows together with Boolean
  column-presence flags, mirroring the code's `c in df.columns` checks.
* `df.head(k)` and Python's `xs[:k]` become `pyTake` (negative `k` drops
  the last `|k|` elements, as in Python).
* Python's stable `sorted` and pandas' stable lexicographic
  `sort_values` become `List.mergeSort` (stable) with an explicit
  descending key order in which `NaN` sorts last (`na_position='last'`).
* The item-similarity table is square over the product universe (its rows
  and columns coincide), so `_item_sim_df.loc[a, b]` is a total lookup
  `sim a b`.
* The single reachable fault site in the engine, `int(meta.get("n_ratings", 0))`
  at model.py line 96 (Python `int(nan)` raises `ValueError`), is modelled
  with `Except String`; every other numeric edge is explicitly guarded in
  the source.
-/

namespace Ebuss

abbrev Pid := String

/-- Python `xs[:k]` and pandas `df.head(k)`: for `k ≥ 0` the first `k`
elements, for `k < 0` everything but the last `|k|` elements. -/
def pyTake (k : ℤ) (xs : List α) : List α :=
  if 0 ≤ k then xs.take k.toNat else xs.take (xs.length - (-k).toNat)

/-- Python `int()` on a real number: truncation toward zero. -/
def pyInt (q : ℚ) : ℤ :=
  if 0 ≤ q then ⌊q⌋ else ⌈q⌉

/-- The epsilon `1e-9` guarding the score denominator (model.py line 81). -/
def eps : ℚ := 1 / 1000000000

/-- Dot product of two aligned value lists (`np.dot` at model.py line 80). -/
def dotQ : List ℚ → List ℚ → ℚ
  | a :: as, b :: bs => a * b + dotQ as bs
  | _, _ => 0

/-- One row of `_product_stats`, keyed elsewhere by product id.
`none` is a missing value / `NaN` cell. -/
structure StatsRow where
  product_name : Option String
  avg_rating : Option ℚ
  n_ratings : Option ℚ
  pct_pos : Option ℚ
  mean_pos_prob : Option ℚ
deriving Repr, DecidableEq

/-- The `_product_stats` table: rows in index order plus presence flags for
the five columns the engine consults (`c in _product_stats.columns`). -/
structure ProductStats where
  hasName : Bool
  hasAvg : Bool
  hasN : Bool
  hasPct : Bool
  hasMean : Bool
  rows : List (Pid × StatsRow)
deriving Repr, DecidableEq

/-- Lookup `_product_stats.loc[pid]`, also deciding `pid in _product_stats.index`. -/
def ProductStats.lookup (st : ProductStats) (pid : Pid) : Option StatsRow :=
  st.rows.lookup pid

/-- The `_item_sim_df` table: its column universe, and the similarity
lookup `(row label, column label) ↦ score`. -/
structure ItemSim where
  cols : List Pid
  sim : Pid → Pid → ℚ

/-- The optional `_user_item` matrix: item columns in order, and one row of
ratings per username, aligned with `itemCols`. -/
structure UserItem where
  itemCols : List Pid
  rows : List (String × List ℚ)

/-- Row lookup `_user_item.loc[username]`, `none` when the username is not a key. -/
def UserItem.find (m : UserItem) (u : String) : Option (List ℚ) :=
  m.rows.lookup u

/-- Model of `user_ratings[user_ratings > 0].index.tolist()` (model.py line 64):
the item columns where the user's rating is strictly positive. -/
def ratedOf (m : UserItem) (row : List ℚ) : List Pid :=
  ((m.itemCols.zip row).filter (fun p => 0 < p.2)).map (·.1)

/-- Rating of one item in a user row (label lookup, first occurrence). -/
def ratingOf (m : UserItem) (row : List ℚ) (pid : Pid) : ℚ :=
  ((m.itemCols.zip row).lookup pid).getD 0

/-- The artifact snapshot loaded at process start (model.py lines 16-27). -/
structure Artifacts where
  itemSim : ItemSim
  stats : ProductStats
  userItem : Option UserItem

/-- A row of the candidate `DataFrame` returned by `get_top20_products` /
`_popularity_fallback`. A cell is meaningful only when the frame carries
the corresponding column; absent columns hold `none`. -/
structure CandRow where
  id : Pid
  product_name : Option String
  avg_rating : Option ℚ
  n_ratings : Option ℚ
  pct_pos : Option ℚ
  mean_pos_prob : Option ℚ
  recomm_score : ℚ
deriving Repr, DecidableEq

/-- The candidate `DataFrame`: presence flags for the optional columns,
plus the rows in frame order. (`id` and `recomm_score` are always set by
both producing paths.) -/
structure CandFrame where
  hasName : Bool
  hasAvg : Bool
  hasN : Bool
  hasPct : Bool
  hasMean : Bool
  rows : List CandRow
deriving Repr, DecidableEq

/-! ### Stable sort

Python's `sorted` and pandas' lexicographic `sort_values` are stable
sorts; `sortLe` is a stable insertion sort on a Boolean "may come first"
relation. It is structurally recursive, so concrete instances reduce in
the kernel. -/

/-- Insert `x` before the first element `y` with `le x y`. -/
def insertLe (le : α → α → Bool) (x : α) : List α → List α
  | [] => [x]
  | y :: ys => if le x y then x :: y :: ys else y :: insertLe le x ys

/-- Stable insertion sort: equal-key elements keep their input order. -/
def sortLe (le : α → α → Bool) : List α → List α
  | [] => []
  | x :: xs => insertLe le x (sortLe le xs)

/-- Python-loop rendering of building a list under a fallible step:
stops at the first error, like an exception escaping a `for` loop. -/
def mapExcept (f : α → Except ε β) : List α → Except ε (List β)
  | [] => .ok []
  | x :: xs =>
    match f x with
    | .error e => .error e
    | .ok y =>
      match mapExcept f xs with
      | .error e => .error e
      | .ok ys => .ok (y :: ys)

/-! ### Sort-key order

pandas `sort_values(sort_cols, ascending=False)` with the default
`na_position='last'`: lexicographic on the listed columns, each descending
with `NaN` after every number. -/

/-- Three-way comparison on ℚ. -/
def cmpQ (x y : ℚ) : Ordering :=
  if x < y then .lt else if x = y then .eq else .gt

/-- Descending-with-NaN-last order on one cell: `.lt` means "sorts
strictly earlier". -/
def cellOrd : Option ℚ → Option ℚ → Ordering
  | none, none => .eq
  | none, some _ => .gt
  | some _, none => .lt
  | some x, some y => cmpQ y x

/-- Lexicographic extension of `cellOrd` to a key (list of cells). -/
def keyOrd : List (Option ℚ) → List (Option ℚ) → Ordering
  | [], [] => .eq
  | [], _ :: _ => .lt
  | _ :: _, [] => .gt
  | a :: as, b :: bs =>
    match cellOrd a b with
    | .eq => keyOrd as bs
    | o => o

/-- Boolean "may come first" relation fed to the stable sort. -/
def keyLe (x y : List (Option ℚ)) : Bool :=
  match keyOrd x y with
  | .gt => false
  | _ => true

/-! ### `_popularity_fallback` (model.py lines 32-50) -/

/-- The sort key of one statistics row: the cells of the present columns
among `["pct_pos", "mean_pos_prob", "avg_rating", "n_ratings"]`, in that
order (model.py lines 43-45). -/
def popSortKey (st : ProductStats) (r : StatsRow) : List (Option ℚ) :=
  (if st.hasPct then [r.pct_pos] else []) ++
  (if st.hasMean then [r.mean_pos_prob] else []) ++
  (if st.hasAvg then [r.avg_rating] else []) ++
  (if st.hasN then [r.n_ratings] else [])

/-- One output row of the fallback frame: the present metadata columns of
one statistics row, the id reattached by `reset_index`, and
`recomm_score = 0.0` (model.py lines 48-49). -/
def popRowOf (st : ProductStats) (p : Pid × StatsRow) : CandRow :=
  { id := p.1
    product_name := if st.hasName then p.2.product_name else none
    avg_rating := if st.hasAvg then p.2.avg_rating else none
    n_ratings := if st.hasN then p.2.n_ratings else none
    pct_pos := if st.hasPct then p.2.pct_pos else none
    mean_pos_prob := if st.hasMean then p.2.mean_pos_prob else none
    recomm_score := 0 }

/-- Model of `_popularity_fallback(top_k)`: select the present metadata
columns, sort descending by the present sort keys, take the head,
reattach the id, and set `recomm_score = 0.0`. -/
def popularity_fallback (st : ProductStats) (top_k : ℤ) : CandFrame :=
  let sorted := sortLe
    (fun a b => keyLe (popSortKey st a.2) (popSortKey st b.2)) st.rows
  { hasName := st.hasName, hasAvg := st.hasAvg, hasN := st.hasN,
    hasPct := st.hasPct, hasMean := st.hasMean,
    rows := (pyTake top_k sorted).map (popRowOf st) }

/-! ### `get_top20_products` (model.py lines 55-100) -/

/-- The scores dict built by the loop at model.py lines 66-81: one entry
per similarity-table column not already rated, in column order. -/
def scoresList (a : Artifacts) (m : UserItem) (row : List ℚ) :
    List (Pid × ℚ) :=
  let rated := ratedOf m row
  (a.itemSim.cols.filter (fun item => ! rated.contains item)).map
    (fun item =>
      if rated.isEmpty then (item, 0)
      else
        let sims := rated.map (fun r => a.itemSim.sim item r)
        let ratings := rated.map (fun r => ratingOf m row r)
        if sims.sum = 0 then (item, 0)
        else (item, dotQ sims ratings / (sims.sum + eps)))

/-- Metadata attachment for one ranked candidate (model.py lines 88-98).
`int(meta.get("n_ratings", 0))` faults when the stats row exists, the
`n_ratings` column is present and the cell is `NaN`. -/
def candRowOf (st : ProductStats) (p : Pid × ℚ) : Except String CandRow :=
  match st.lookup p.1 with
  | some meta =>
    match (if st.hasN then meta.n_ratings else some 0 : Option ℚ) with
    | none => .error "cannot convert float NaN to integer"
    | some nv => .ok
      { id := p.1
        product_name := if st.hasName then meta.product_name else none
        avg_rating := if st.hasAvg then meta.avg_rating else none
        n_ratings := some ((pyInt nv : ℤ) : ℚ)
        pct_pos := none
        mean_pos_prob := none
        recomm_score := p.2 }
  | none => .ok
    { id := p.1, product_name := none, avg_rating := none
      n_ratings := some 0, pct_pos := none, mean_pos_prob := none
      recomm_score := p.2 }

/-- The ranked score list: `sorted(scores.items(), key=score, reverse=True)[:top_k]`
(model.py lines 83-85; Python's `sorted` is stable and `reverse=True`
keeps equal-key items in insertion order). -/
def rankedScores (a : Artifacts) (m : UserItem) (row : List ℚ)
    (top_k : ℤ) : List (Pid × ℚ) :=
  pyTake top_k (sortLe (fun x y => decide (y.2 ≤ x.2)) (scoresList a m row))

/-- Model of `get_top20_products(username, top_k)`: popularity fallback when the
user-item matrix is absent or the username unknown, otherwise item-based
scores with metadata. -/
def get_top20_products (a : Artifacts) (username : String) (top_k : ℤ) :
    Except String CandFrame :=
  match a.userItem with
  | none => .ok (popularity_fallback a.stats top_k)
  | some m =>
    match m.find username with
    | none => .ok (popularity_fallback a.stats top_k)
    | some row =>
      match mapExcept (candRowOf a.stats) (rankedScores a m row top_k) with
      | .error e => .error e
      | .ok rows => .ok
        { hasName := true, hasAvg := true, hasN := true,
          hasPct := false, hasMean := false, rows := rows }

/-! ### `get_final_recommendations` (model.py lines 105-176) -/

/-- A row of the `merged` frame after the sentiment join, the
`pct_pos`/`mean_pos_prob` ensure-and-fill, and the blend computation
(model.py lines 128-146). -/
structure MergedRow where
  id : Pid
  product_name : Option String
  avg_rating : Option ℚ
  n_ratings : Option ℚ
  pct_pos : ℚ
  mean_pos_prob : ℚ
  recomm_score : ℚ
  blend : ℚ
deriving Repr, DecidableEq

/-- A Final Recommendation Record: one output dict of model.py
lines 167-175. -/
structure FinalRec where
  id : Pid
  product_name : Option String
  avg_rating : Option ℚ
  n_ratings : ℤ
  pct_pos : ℚ
  mean_pos_prob : ℚ
  blend : ℚ
deriving Repr, DecidableEq

/-- The `pct_pos` value of one merged row: the candidate frame's own
column when it carries one (the overlap drop at lines 124-126 discards
the statistics copy), otherwise the statistics value reindexed by
candidate id; missing column or `NaN` becomes `0.0` (lines 131-135). -/
def mergedPct (st : ProductStats) (f : CandFrame) (r : CandRow) : ℚ :=
  if f.hasPct then r.pct_pos.getD 0
  else if st.hasPct then ((st.lookup r.id).bind (·.pct_pos)).getD 0
  else 0

/-- Same as `mergedPct` for `mean_pos_prob`. -/
def mergedMean (st : ProductStats) (f : CandFrame) (r : CandRow) : ℚ :=
  if f.hasMean then r.mean_pos_prob.getD 0
  else if st.hasMean then ((st.lookup r.id).bind (·.mean_pos_prob)).getD 0
  else 0

/-- Join and enrich one candidate row: ensure/fill the sentiment columns
and compute `blend = 0.6*recomm_score + 0.3*pct_pos + 0.1*mean_pos_prob`
(model.py lines 128-146). -/
def mergedRowOf (st : ProductStats) (f : CandFrame) (r : CandRow) :
    MergedRow :=
  let pct := mergedPct st f r
  let mean := mergedMean st f r
  { id := r.id, product_name := r.product_name
    avg_rating := r.avg_rating, n_ratings := r.n_ratings
    pct_pos := pct, mean_pos_prob := mean
    recomm_score := r.recomm_score
    blend := 0.6 * r.recomm_score + 0.3 * pct + 0.1 * mean }

/-- The `merged` frame: every candidate row joined with its sentiment
cells and blended (model.py lines 128-146). -/
def mergedRows (st : ProductStats) (f : CandFrame) : List MergedRow :=
  f.rows.map (mergedRowOf st f)

/-- Sort key of the final sort: `['blend']`, plus `avg_rating` when the
merged frame carries that column (model.py lines 149-153). -/
def finalSortKey (f : CandFrame) (r : MergedRow) : List (Option ℚ) :=
  some r.blend :: (if f.hasAvg then [r.avg_rating] else [])

/-- The defensive filter at model.py lines 157-162: when the user-item
matrix exists and the username is a key, drop every row whose id the user
already rated strictly positively; otherwise leave the rows alone. -/
def ratedSetFilter (a : Artifacts) (username : String)
    (rows : List MergedRow) : List MergedRow :=
  match a.userItem with
  | none => rows
  | some m =>
    match m.find username with
    | none => rows
    | some row =>
      let already := ratedOf m row
      rows.filter (fun r => ! already.contains r.id)

/-- Projection of one surviving merged row to the output dict
(model.py lines 167-175). -/
def finalRecOf (f : CandFrame) (r : MergedRow) : FinalRec :=
  { id := r.id
    product_name := if f.hasName then r.product_name else none
    avg_rating := if f.hasAvg then r.avg_rating else none
    n_ratings := if f.hasN then (r.n_ratings.map pyInt).getD 0 else 0
    pct_pos := r.pct_pos
    mean_pos_prob := r.mean_pos_prob
    blend := r.blend }

/-- Model of `get_final_recommendations(username, top_k_candidates, final_k)`. -/
def get_final_recommendations (a : Artifacts) (username : String)
    (top_k_candidates final_k : ℤ) : Except String (List FinalRec) :=
  match get_top20_products a username top_k_candidates with
  | .error e => .error e
  | .ok f =>
    let sorted := sortLe
      (fun x y => keyLe (finalSortKey f x) (finalSortKey f y))
      (mergedRows a.stats f)
    let filtered := ratedSetFilter a username sorted
    .ok ((pyTake final_k filtered).map (finalRecOf f))

/-- The same pipeline with the defensive filter step (model.py
lines 157-162) deleted; used to state that the filter never removes
anything. -/
def get_final_recommendations_nofilter (a : Artifacts) (username : String)
    (top_k_candidates final_k : ℤ) : Except String (List FinalRec) :=
  match get_top20_products a username top_k_candidates with
  | .error e => .error e
  | .ok f =>
    let sorted := sortLe
      (fun x y => keyLe (finalSortKey f x) (finalSortKey f y))
      (mergedRows a.stats f)
    .ok ((pyTake final_k sorted).map (finalRecOf f))

/-! ### State-threading wrappers

The Python functions only read the module-level artifacts (and `.copy()`
every frame they go on to modify); no statement assigns to
`_item_sim_df`, `_product_stats` or `_user_item` after load. The
state-passing renderings below make that frame condition a statement:
each invocation returns the artifact snapshot it was given. -/

/-- Wrapper rendering `get_top20_products` as a state transformer on the artifact store. -/
def get_top20_products_st (a : Artifacts) (username : String)
    (top_k : ℤ) : Except String CandFrame × Artifacts :=
  (get_top20_products a username top_k, a)

/-- Wrapper rendering `get_final_recommendations` as a state transformer on the artifact
store. -/
def get_final_recommendations_st (a : Artifacts) (username : String)
    (top_k_candidates final_k : ℤ) :
    Except String (List FinalRec) × Artifacts :=
  (get_final_recommendations a username top_k_candidates final_k, a)

/-! ### Observations used in statements -/

/-- The sort key a candidate row would get from the fallback's ordered
key sequence, read off the candidate frame's own columns. -/
def candSortKey (f : CandFrame) (r : CandRow) : List (Option ℚ) :=
  (if f.hasPct then [r.pct_pos] else []) ++
  (if f.hasMean then [r.mean_pos_prob] else []) ++
  (if f.hasAvg then [r.avg_rating] else []) ++
  (if f.hasN then [r.n_ratings] else [])

/-- The sentiment columns selected from `_product_stats`
(model.py line 120). -/
def sentCols (st : ProductStats) : List String :=
  (if st.hasPct then ["pct_pos"] else []) ++
  (if st.hasMean then ["mean_pos_prob"] else [])

/-- Column membership test on a candidate frame, for the sentiment
column names. -/
def candHasCol (f : CandFrame) (c : String) : Bool :=
  (c == "pct_pos" && f.hasPct) || (c == "mean_pos_prob" && f.hasMean)

/-- Model of `overlap = [c for c in prod_sent.columns if c in cand_df.columns]`
(model.py line 124): the sentiment columns dropped from the statistics
side before the join. -/
def overlapCols (st : ProductStats) (f : CandFrame) : List String :=
  (sentCols st).filter (fun c => candHasCol f c)

/-! ### Concrete artifact snapshots

Scenario fixtures from the specification, used for scenario claims,
counterexamples and witnesses. -/

/-- Scenario A statistics: three products with `pct_pos` 0.9, 0.5, 0.1;
only the name and `pct_pos` columns are present. -/
def statsA : ProductStats :=
  { hasName := true, hasAvg := false, hasN := false,
    hasPct := true, hasMean := false,
    rows := [("P1", ⟨some "P1 name", none, none, some (9/10), none⟩),
             ("P2", ⟨some "P2 name", none, none, some (5/10), none⟩),
             ("P3", ⟨some "P3 name", none, none, some (1/10), none⟩)] }

/-- Scenario A snapshot: no user-item matrix at all. -/
def artifactsA : Artifacts :=
  { itemSim := ⟨[], fun _ _ => 0⟩, stats := statsA, userItem := none }

/-- Scenario B similarity table: universe `{A, B, C}` with
`sim(B, A) = 0.8` and every other pair 0. -/
def simB : ItemSim :=
  ⟨["A", "B", "C"], fun x y => if x = "B" ∧ y = "A" then 8/10 else 0⟩

/-- Scenario B user-item matrix: `bob` rated item `A` with 5. -/
def userItemB : UserItem :=
  { itemCols := ["A"], rows := [("bob", [5])] }

/-- Scenario B snapshot: empty statistics table, known user `bob`. -/
def artifactsB : Artifacts :=
  { itemSim := simB
    stats := { hasName := false, hasAvg := false, hasN := false,
               hasPct := false, hasMean := false, rows := [] }
    userItem := some userItemB }

/-- Scenario C statistics: a full row for product `A` only; candidate `D`
has no statistics row. -/
def statsC : ProductStats :=
  { hasName := true, hasAvg := true, hasN := true,
    hasPct := true, hasMean := true,
    rows := [("A", ⟨some "A name", some 4, some 7, some (3/4), some (2/3)⟩)] }

/-- Scenario C similarity table: universe `{A, D}` with
`sim(D, A) = 0.5`. -/
def simC : ItemSim :=
  ⟨["A", "D"], fun x y => if x = "D" ∧ y = "A" then 1/2 else 0⟩

/-- Scenario C user-item matrix: `bob` rated item `A` with 5. -/
def userItemC : UserItem :=
  { itemCols := ["A"], rows := [("bob", [5])] }

/-- Scenario C snapshot: known user, one candidate without metadata. -/
def artifactsC : Artifacts :=
  { itemSim := simC, stats := statsC, userItem := some userItemC }

/-! ## General lemmas about the building blocks -/

theorem mem_insertLe {le : α → α → Bool} {x a : α} {l : List α} :
    a ∈ insertLe le x l ↔ a = x ∨ a ∈ l := by
  induction l with
  | nil => simp [insertLe]
  | cons y ys ih =>
    by_cases h : le x y = true
    · simp [insertLe, h]
    · simp only [insertLe, if_neg h, List.mem_cons, ih]
      tauto

theorem mem_sortLe {le : α → α → Bool} {a : α} {l : List α} :
    a ∈ sortLe le l ↔ a ∈ l := by
  induction l with
  | nil => simp [sortLe]
  | cons x xs ih => simp [sortLe, mem_insertLe, ih]

theorem length_insertLe (le : α → α → Bool) (x : α) (l : List α) :
    (insertLe le x l).length = l.length + 1 := by
  induction l with
  | nil => rfl
  | cons y ys ih =>
    by_cases h : le x y = true
    · simp [insertLe, h]
    · simp [insertLe, h, ih]

theorem length_sortLe (le : α → α → Bool) (l : List α) :
    (sortLe le l).length = l.length := by
  induction l with
  | nil => rfl
  | cons x xs ih => simp [sortLe, length_insertLe, ih]

theorem pairwise_insertLe {le : α → α → Bool}
    (htrans : ∀ a b c, le a b = true → le b c = true → le a c = true)
    (htotal : ∀ a b, le a b = true ∨ le b a = true)
    (x : α) {l : List α} (h : l.Pairwise (fun a b => le a b = true)) :
    (insertLe le x l).Pairwise (fun a b => le a b = true) := by
  induction l with
  | nil => simp [insertLe]
  | cons y ys ih =>
    rcases List.pairwise_cons.1 h with ⟨hy, hys⟩
    by_cases hxy : le x y = true
    · simp only [insertLe, if_pos hxy]
      refine List.pairwise_cons.2 ⟨?_, h⟩
      intro b hb
      rcases List.mem_cons.1 hb with rfl | hb
      · exact hxy
      · exact htrans x y b hxy (hy b hb)
    · simp only [insertLe, if_neg hxy]
      refine List.pairwise_cons.2 ⟨?_, ih hys⟩
      intro b hb
      rcases mem_insertLe.1 hb with hb1 | hb
      · rw [hb1]
        exact (htotal x y).resolve_left hxy
      · exact hy b hb

theorem pairwise_sortLe {le : α → α → Bool}
    (htrans : ∀ a b c, le a b = true → le b c = true → le a c = true)
    (htotal : ∀ a b, le a b = true ∨ le b a = true) (l : List α) :
    (sortLe le l).Pairwise (fun a b => le a b = true) := by
  induction l with
  | nil => simp [sortLe]
  | cons x xs ih => exact pairwise_insertLe htrans htotal x ih

theorem pyTake_sublist (k : ℤ) (xs : List α) : (pyTake k xs).Sublist xs := by
  unfold pyTake
  split
  · exact List.take_sublist _ _
  · exact List.take_sublist _ _

theorem mem_of_mem_pyTake {k : ℤ} {xs : List α} {a : α}
    (h : a ∈ pyTake k xs) : a ∈ xs :=
  (pyTake_sublist k xs).subset h

theorem length_pyTake_le (k : ℤ) (xs : List α) :
    (pyTake k xs).length ≤ xs.length :=
  (pyTake_sublist k xs).length_le

theorem length_pyTake_le_toNat {k : ℤ} (hk : 0 ≤ k) (xs : List α) :
    (pyTake k xs).length ≤ k.toNat := by
  unfold pyTake
  rw [if_pos hk]
  simp [List.length_take]

theorem lookup_some_mem [BEq α] [LawfulBEq α] {l : List (α × β)} {k : α}
    {v : β} (h : l.lookup k = some v) : (k, v) ∈ l := by
  induction l with
  | nil => simp [List.lookup] at h
  | cons p ps ih =>
    obtain ⟨pk, pv⟩ := p
    rw [List.lookup_cons] at h
    cases hbeq : k == pk with
    | true =>
      rw [hbeq] at h
      obtain rfl : pv = v := by simpa using h
      obtain rfl : k = pk := eq_of_beq hbeq
      exact List.mem_cons_self _ _
    | false =>
      rw [hbeq] at h
      exact List.mem_cons_of_mem _ (ih h)

theorem lookup_ne_none_of_mem [BEq α] [LawfulBEq α] {l : List (α × β)}
    {k : α} {v : β} (h : (k, v) ∈ l) : l.lookup k ≠ none := by
  induction l with
  | nil => simp at h
  | cons p ps ih =>
    obtain ⟨pk, pv⟩ := p
    rw [List.lookup_cons]
    rcases List.mem_cons.1 h with heq | hmem
    · injection heq with h1 h2
      subst h1
      subst h2
      simp
    · cases hbeq : k == pk with
      | true => simp
      | false => simpa using ih hmem

theorem lookup_of_mem_nodup [BEq α] [LawfulBEq α] {l : List (α × β)}
    (hn : (l.map Prod.fst).Nodup) {k : α} {v : β} (h : (k, v) ∈ l) :
    l.lookup k = some v := by
  induction l with
  | nil => simp at h
  | cons p ps ih =>
    obtain ⟨pk, pv⟩ := p
    rw [List.map_cons] at hn
    rcases List.mem_cons.1 h with heq | hmem
    · injection heq with h1 h2
      subst h1
      subst h2
      rw [List.lookup_cons]
      simp
    · have hne : (k == pk) = false := by
        refine beq_eq_false_iff_ne.2 ?_
        intro hkp
        subst hkp
        exact (List.nodup_cons.1 hn).1
          (List.mem_map.2 ⟨(k, v), hmem, rfl⟩)
      rw [List.lookup_cons, hne]
      exact ih (List.nodup_cons.1 hn).2 hmem

theorem mapExcept_ok_mem {f : α → Except ε β} :
    ∀ {xs : List α} {ys : List β}, mapExcept f xs = .ok ys →
      ∀ y ∈ ys, ∃ x ∈ xs, f x = .ok y := by
  intro xs
  induction xs with
  | nil =>
    intro ys h y hy
    rw [mapExcept] at h
    obtain rfl : ([] : List β) = ys := by simpa using h
    simp at hy
  | cons x xs ih =>
    intro ys h y hy
    rw [mapExcept] at h
    cases hfx : f x with
    | error e => rw [hfx] at h; simp at h
    | ok b =>
      rw [hfx] at h
      cases hrec : mapExcept f xs with
      | error e => rw [hrec] at h; simp at h
      | ok bs =>
        rw [hrec] at h
        obtain rfl : b :: bs = ys := by simpa using h
        rcases List.mem_cons.1 hy with rfl | hmem
        · exact ⟨x, List.mem_cons_self _ _, hfx⟩
        · obtain ⟨x2, hx2, hfx2⟩ := ih hrec y hmem
          exact ⟨x2, List.mem_cons_of_mem _ hx2, hfx2⟩

theorem cmpQ_eq_lt {x y : ℚ} : cmpQ x y = Ordering.lt ↔ x < y := by
  unfold cmpQ
  split
  · next h => simp [h]
  · split
    · next h1 h2 => simp [h1, h2]
    · next h1 h2 => simp [h1]

theorem cmpQ_eq_eq {x y : ℚ} : cmpQ x y = Ordering.eq ↔ x = y := by
  unfold cmpQ
  split
  · next h => simp [ne_of_lt h]
  · split
    · next h1 h2 => simp [h2]
    · next h1 h2 => simp [h2]

theorem cmpQ_eq_gt {x y : ℚ} : cmpQ x y = Ordering.gt ↔ y < x := by
  unfold cmpQ
  split
  · next h => simp [asymm h]
  · split
    · next h1 h2 => simp [h2, lt_irrefl]
    · next h1 h2 =>
      simp only [true_iff]
      exact lt_of_le_of_ne (le_of_not_lt h1) (Ne.symm h2)

theorem cellOrd_eq_eq {a b : Option ℚ} : cellOrd a b = Ordering.eq ↔ a = b := by
  cases a with
  | none => cases b <;> simp [cellOrd]
  | some x =>
    cases b with
    | none => simp [cellOrd]
    | some y =>
      simp only [cellOrd, Option.some.injEq]
      rw [cmpQ_eq_eq]
      exact eq_comm

theorem cellOrd_lt_trans {a b c : Option ℚ} (h1 : cellOrd a b = Ordering.lt)
    (h2 : cellOrd b c = Ordering.lt) : cellOrd a c = Ordering.lt := by
  cases a <;> cases b <;> cases c <;>
    simp_all [cellOrd, cmpQ_eq_lt] <;> exact lt_trans h2 h1

theorem cellOrd_swap (a b : Option ℚ) : cellOrd b a = (cellOrd a b).swap := by
  cases a <;> cases b <;> simp only [cellOrd, Ordering.swap]
  rename_i x y
  rcases lt_trichotomy x y with h | h | h
  · rw [cmpQ_eq_lt.2 h, cmpQ_eq_gt.2 h]
  · rw [cmpQ_eq_eq.2 h, cmpQ_eq_eq.2 h.symm]
  · rw [cmpQ_eq_gt.2 h, cmpQ_eq_lt.2 h]

theorem keyOrd_eq_eq : ∀ {x y : List (Option ℚ)},
    keyOrd x y = Ordering.eq ↔ x = y := by
  intro x
  induction x with
  | nil =>
    intro y
    cases y <;> simp [keyOrd]
  | cons a as ih =>
    intro y
    cases y with
    | nil => simp [keyOrd]
    | cons b bs =>
      simp only [keyOrd]
      cases hab : cellOrd a b with
      | eq =>
        obtain rfl : a = b := cellOrd_eq_eq.1 hab
        simp [ih]
      | lt =>
        have hne : a ≠ b := by
          intro h
          rw [h, cellOrd_eq_eq.2 rfl] at hab
          simp at hab
        simp [hne]
      | gt =>
        have hne : a ≠ b := by
          intro h
          rw [h, cellOrd_eq_eq.2 rfl] at hab
          simp at hab
        simp [hne]

theorem keyOrd_swap : ∀ (x y : List (Option ℚ)),
    keyOrd y x = (keyOrd x y).swap := by
  intro x
  induction x with
  | nil =>
    intro y
    cases y <;> rfl
  | cons a as ih =>
    intro y
    cases y with
    | nil => rfl
    | cons b bs =>
      simp only [keyOrd, cellOrd_swap a b]
      cases hab : cellOrd a b <;> simp [Ordering.swap, ih]

theorem keyOrd_lt_trans : ∀ {x y z : List (Option ℚ)},
    keyOrd x y = Ordering.lt → keyOrd y z = Ordering.lt →
    keyOrd x z = Ordering.lt := by
  intro x
  induction x with
  | nil =>
    intro y z hxy hyz
    cases y with
    | nil => simp [keyOrd] at hxy
    | cons b bs =>
      cases z with
      | nil => simp [keyOrd] at hyz
      | cons c cs => simp [keyOrd]
  | cons a as ih =>
    intro y z hxy hyz
    cases y with
    | nil => simp [keyOrd] at hxy
    | cons b bs =>
      cases z with
      | nil => simp [keyOrd] at hyz
      | cons c cs =>
        simp only [keyOrd] at hxy hyz ⊢
        cases hab : cellOrd a b with
        | gt => rw [hab] at hxy; exact absurd hxy (by simp)
        | lt =>
          cases hbc : cellOrd b c with
          | gt => rw [hbc] at hyz; exact absurd hyz (by simp)
          | lt => rw [cellOrd_lt_trans hab hbc]
          | eq =>
            obtain rfl : b = c := cellOrd_eq_eq.1 hbc
            rw [hab]
        | eq =>
          obtain rfl : a = b := cellOrd_eq_eq.1 hab
          rw [hab] at hxy
          cases hbc : cellOrd a c with
          | gt => rw [hbc] at hyz; exact absurd hyz (by simp)
          | lt => rfl
          | eq =>
            rw [hbc] at hyz
            rw [ih hxy hyz]

theorem keyLe_iff {x y : List (Option ℚ)} :
    keyLe x y = true ↔ keyOrd x y ≠ Ordering.gt := by
  unfold keyLe
  cases keyOrd x y <;> simp

theorem keyLe_trans {x y z : List (Option ℚ)} (h1 : keyLe x y = true)
    (h2 : keyLe y z = true) : keyLe x z = true := by
  rw [keyLe_iff] at h1 h2 ⊢
  cases hxy : keyOrd x y with
  | gt => exact absurd hxy h1
  | eq =>
    obtain rfl : x = y := keyOrd_eq_eq.1 hxy
    exact h2
  | lt =>
    cases hyz : keyOrd y z with
    | gt => exact absurd hyz h2
    | eq =>
      obtain rfl : y = z := keyOrd_eq_eq.1 hyz
      simp [hxy]
    | lt => simp [keyOrd_lt_trans hxy hyz]

theorem keyLe_total (x y : List (Option ℚ)) :
    keyLe x y = true ∨ keyLe y x = true := by
  rw [keyLe_iff, keyLe_iff]
  cases hxy : keyOrd x y with
  | lt => left; simp
  | eq => left; simp
  | gt =>
    right
    rw [keyOrd_swap x y, hxy]
    simp [Ordering.swap]

theorem mapExcept_ok_of_forall {f : α → Except ε β} :
    ∀ {xs : List α}, (∀ x ∈ xs, ∃ y, f x = .ok y) →
      ∃ ys, mapExcept f xs = .ok ys := by
  intro xs
  induction xs with
  | nil => intro _; exact ⟨[], rfl⟩
  | cons x xs ih =>
    intro h
    obtain ⟨y, hy⟩ := h x (List.mem_cons_self _ _)
    obtain ⟨ys, hys⟩ := ih (fun z hz => h z (List.mem_cons_of_mem _ hz))
    refine ⟨y :: ys, ?_⟩
    rw [mapExcept, hy, hys]

/-! ## Path characterizations of the pipeline -/

theorem top20_unknown_eq (a : Artifacts) (u : String) (k : ℤ)
    (h : a.userItem = none ∨ ∃ m, a.userItem = some m ∧ m.find u = none) :
    get_top20_products a u k = .ok (popularity_fallback a.stats k) := by
  rcases h with h | ⟨m, hm, hu⟩
  · simp only [get_top20_products, h]
  · simp only [get_top20_products, hm, hu]

theorem top20_known_eq (a : Artifacts) (m : UserItem) (u : String)
    (row : List ℚ) (k : ℤ) (hm : a.userItem = some m)
    (hu : m.find u = some row) :
    get_top20_products a u k =
      match mapExcept (candRowOf a.stats) (rankedScores a m row k) with
      | .error e => .error e
      | .ok rows => .ok
        { hasName := true, hasAvg := true, hasN := true,
          hasPct := false, hasMean := false, rows := rows } := by
  simp only [get_top20_products, hm, hu]

theorem get_final_eq (a : Artifacts) (u : String) (k1 k2 : ℤ)
    (f : CandFrame) (hf : get_top20_products a u k1 = .ok f) :
    get_final_recommendations a u k1 k2 = .ok ((pyTake k2 (ratedSetFilter a u
      (sortLe (fun x y => keyLe (finalSortKey f x) (finalSortKey f y))
        (mergedRows a.stats f)))).map (finalRecOf f)) := by
  unfold get_final_recommendations
  rw [hf]

theorem candRowOf_ok {st : ProductStats} {p : Pid × ℚ} {r : CandRow}
    (h : candRowOf st p = .ok r) : r.id = p.1 ∧ r.recomm_score = p.2 := by
  unfold candRowOf at h
  cases hl : st.lookup p.1 with
  | none =>
    simp only [hl] at h
    cases h
    exact ⟨rfl, rfl⟩
  | some meta =>
    simp only [hl] at h
    cases hn : (if st.hasN then meta.n_ratings else some 0 : Option ℚ) with
    | none => simp only [hn] at h; simp at h
    | some nv =>
      simp only [hn] at h
      cases h
      exact ⟨rfl, rfl⟩

theorem mem_scoresList {a : Artifacts} {m : UserItem} {row : List ℚ}
    {p : Pid × ℚ} (hp : p ∈ scoresList a m row) :
    (ratedOf m row).contains p.1 = false ∧
    p.2 = (if (ratedOf m row).isEmpty then 0
           else
             if ((ratedOf m row).map (fun r => a.itemSim.sim p.1 r)).sum = 0
             then 0
             else dotQ ((ratedOf m row).map (fun r => a.itemSim.sim p.1 r))
                    ((ratedOf m row).map (fun r => ratingOf m row r)) /
                  (((ratedOf m row).map (fun r => a.itemSim.sim p.1 r)).sum
                    + eps)) := by
  unfold scoresList at hp
  obtain ⟨item, hitem, hpe⟩ := List.mem_map.1 hp
  have hcontains := (List.mem_filter.1 hitem).2
  by_cases hemp : (ratedOf m row).isEmpty = true
  · rw [if_pos hemp] at hpe
    rw [if_pos hemp]
    obtain rfl : (item, (0 : ℚ)) = p := hpe
    exact ⟨by simpa using hcontains, rfl⟩
  · rw [if_neg hemp] at hpe
    rw [if_neg hemp]
    by_cases hsum :
        ((ratedOf m row).map (fun r => a.itemSim.sim item r)).sum = 0
    · rw [if_pos hsum] at hpe
      obtain rfl : (item, (0 : ℚ)) = p := hpe
      rw [if_pos hsum]
      exact ⟨by simpa using hcontains, rfl⟩
    · rw [if_neg hsum] at hpe
      obtain rfl := hpe
      rw [if_neg hsum]
      exact ⟨by simpa using hcontains, rfl⟩

theorem mem_ratedSetFilter {a : Artifacts} {u : String} {l : List MergedRow}
    {x : MergedRow} (h : x ∈ ratedSetFilter a u l) : x ∈ l := by
  unfold ratedSetFilter at h
  cases hui : a.userItem with
  | none => simpa only [hui] using h
  | some m =>
    cases hf : m.find u with
    | none => simpa only [hui, hf] using h
    | some row =>
      simp only [hui, hf] at h
      exact (List.mem_filter.1 h).1

/-! ## The claims -/

/-- C2: for every username that is not a key of the user-item matrix, and
for every username when the matrix is absent, `get_top20_products` returns
exactly the popularity ranker's output for the same `top_k` — the same
frame, rows, order and fields. -/
theorem claim_C2_fallback_identity (a : Artifacts) (u : String) (k : ℤ)
    (h : a.userItem = none ∨ ∃ m, a.userItem = some m ∧ m.find u = none) :
    get_top20_products a u k = .ok (popularity_fallback a.stats k) :=
  top20_unknown_eq a u k h

/-- Witness for C2 at a concrete snapshot with no user-item matrix. -/
theorem claim_C2_witness :
    get_top20_products artifactsA "alice" 7 =
      .ok (popularity_fallback artifactsA.stats 7) :=
  claim_C2_fallback_identity artifactsA "alice" 7 (Or.inl rfl)

/-- C1: for every username that is a key of the user-item matrix, no
record in the list returned by `get_final_recommendations` has an id in
that user's rated-item set (the product identifiers rated strictly above
zero), for all values of `top_k_candidates` and `final_k`. -/
theorem claim_C1_exclusion (a : Artifacts) (m : UserItem) (u : String)
    (row : List ℚ) (hm : a.userItem = some m) (hu : m.find u = some row)
    (k1 k2 : ℤ) (recs : List FinalRec)
    (hok : get_final_recommendations a u k1 k2 = .ok recs) :
    ∀ r ∈ recs, r.id ∉ ratedOf m row := by
  cases hf : get_top20_products a u k1 with
  | error e =>
    unfold get_final_recommendations at hok
    simp only [hf] at hok
    cases hok
  | ok f =>
    rw [get_final_eq a u k1 k2 f hf] at hok
    cases hok
    intro r hr
    obtain ⟨mr, hmr, rfl⟩ := List.mem_map.1 hr
    have hmr2 := mem_of_mem_pyTake hmr
    unfold ratedSetFilter at hmr2
    simp only [hm, hu] at hmr2
    have hpred := (List.mem_filter.1 hmr2).2
    simp only [Bool.not_eq_eq_eq_not, Bool.not_true] at hpred
    intro hmem
    have h2 : (ratedOf m row).contains mr.id = true :=
      List.elem_eq_true_of_mem hmem
    rw [hpred] at h2
    cases h2

/-- Witness for C1 at Scenario B: the returned record for product B does
not name a product that bob rated. -/
theorem claim_C1_witness :
    ({ id := "B", product_name := none, avg_rating := none, n_ratings := 0,
       pct_pos := 0, mean_pos_prob := 0,
       blend := 800000000/266666667 } : FinalRec).id ∉
      ratedOf userItemB [5] :=
  claim_C1_exclusion artifactsB userItemB "bob" [5] rfl
    (by with_unfolding_all rfl) 20 5
    [{ id := "B", product_name := none, avg_rating := none, n_ratings := 0,
       pct_pos := 0, mean_pos_prob := 0, blend := 800000000/266666667 },
     { id := "C", product_name := none, avg_rating := none, n_ratings := 0,
       pct_pos := 0, mean_pos_prob := 0, blend := 0 }]
    (by with_unfolding_all rfl) _ (List.mem_cons_self _ _)

theorem ratedSetFilter_eq_self (a : Artifacts) (u : String)
    (l : List MergedRow)
    (h : ∀ m row, a.userItem = some m → m.find u = some row →
      ∀ x ∈ l, (ratedOf m row).contains x.id = false) :
    ratedSetFilter a u l = l := by
  unfold ratedSetFilter
  cases hui : a.userItem with
  | none => rfl
  | some m =>
    show (match m.find u with
      | none => l
      | some row =>
        List.filter (fun r => !(ratedOf m row).contains r.id) l) = l
    cases hfind : m.find u with
    | none => rfl
    | some row =>
      show List.filter (fun r => !(ratedOf m row).contains r.id) l = l
      refine List.filter_eq_self.2 ?_
      intro x hx
      rw [h m row hui hfind x hx]
      rfl

/-- C10: the defensive rated-item filter in `get_final_recommendations`
never removes any candidate: for all inputs the pipeline returns the same
list as the same pipeline with the filter step deleted. -/
theorem claim_C10_filter_vacuous (a : Artifacts) (u : String)
    (k1 k2 : ℤ) :
    get_final_recommendations a u k1 k2 =
      get_final_recommendations_nofilter a u k1 k2 := by
  unfold get_final_recommendations get_final_recommendations_nofilter
  cases hf : get_top20_products a u k1 with
  | error e => rfl
  | ok f =>
    have hfil : ratedSetFilter a u
        (sortLe (fun x y => keyLe (finalSortKey f x) (finalSortKey f y))
          (mergedRows a.stats f)) =
        sortLe (fun x y => keyLe (finalSortKey f x) (finalSortKey f y))
          (mergedRows a.stats f) := by
      apply ratedSetFilter_eq_self
      intro m row hui hfind x hx
      rw [top20_known_eq a m u row k1 hui hfind] at hf
      cases hmap : mapExcept (candRowOf a.stats) (rankedScores a m row k1)
        with
      | error e2 =>
        simp only [hmap] at hf
        cases hf
      | ok rows =>
        simp only [hmap] at hf
        cases hf
        have hx2 := mem_sortLe.1 hx
        obtain ⟨cr, hcr, rfl⟩ := List.mem_map.1 hx2
        obtain ⟨p, hp, hpok⟩ := mapExcept_ok_mem hmap cr hcr
        have hid := (candRowOf_ok hpok).1
        have hp2 : p ∈ scoresList a m row := by
          unfold rankedScores at hp
          exact mem_sortLe.1 (mem_of_mem_pyTake hp)
        have hcontains := (mem_scoresList hp2).1
        show (ratedOf m row).contains cr.id = false
        rw [hid]
        exact hcontains
    simp only [hfil]

/-- C9: no invocation of the two entry points, rendered as state
transformers over the artifact store, changes the loaded artifact tables:
the returned snapshot is the one passed in. -/
theorem claim_C9_no_mutation (a : Artifacts) (u : String) (k1 k2 : ℤ) :
    (get_top20_products_st a u k1).2 = a ∧
    (get_final_recommendations_st a u k1 k2).2 = a :=
  ⟨rfl, rfl⟩

theorem candSortKey_popularity (st : ProductStats) (k : ℤ)
    (p : Pid × StatsRow) :
    candSortKey (popularity_fallback st k) (popRowOf st p) =
      popSortKey st p.2 := by
  cases hp : st.hasPct <;> cases hq : st.hasMean <;> cases ha : st.hasAvg <;>
    cases hn : st.hasN <;>
      simp [candSortKey, popularity_fallback, popRowOf, popSortKey,
        hp, hq, ha, hn]

/-- C4: for every `top_k > 0` the popularity ranker output has length at
most `top_k` and at most the number of statistics rows, is sorted
non-increasing by the lexicographic sequence of present sort columns
(first present column primary, later present columns breaking ties), and
every returned row has `recomm_score = 0.0`. -/
theorem claim_C4_popularity_ranker (st : ProductStats) (k : ℤ)
    (hk : 0 < k) :
    ((popularity_fallback st k).rows.length : ℤ) ≤ k ∧
    (popularity_fallback st k).rows.length ≤ st.rows.length ∧
    (popularity_fallback st k).rows.Pairwise
      (fun a b => keyLe (candSortKey (popularity_fallback st k) a)
        (candSortKey (popularity_fallback st k) b) = true) ∧
    ∀ r ∈ (popularity_fallback st k).rows, r.recomm_score = 0 := by
  have hrows : (popularity_fallback st k).rows =
      (pyTake k (sortLe
        (fun a b => keyLe (popSortKey st a.2) (popSortKey st b.2))
        st.rows)).map (popRowOf st) := rfl
  refine ⟨?_, ?_, ?_, ?_⟩
  · rw [hrows, List.length_map]
    have h1 := length_pyTake_le_toNat (le_of_lt hk)
      (sortLe (fun a b => keyLe (popSortKey st a.2) (popSortKey st b.2))
        st.rows)
    omega
  · rw [hrows, List.length_map]
    have h1 := length_pyTake_le k
      (sortLe (fun a b => keyLe (popSortKey st a.2) (popSortKey st b.2))
        st.rows)
    rw [length_sortLe] at h1
    exact h1
  · rw [hrows, List.pairwise_map]
    have hs := @pairwise_sortLe (Pid × StatsRow)
      (fun a b => keyLe (popSortKey st a.2) (popSortKey st b.2))
      (fun _ _ _ hxy hyz => keyLe_trans hxy hyz)
      (fun x y => keyLe_total (popSortKey st x.2) (popSortKey st y.2))
      st.rows
    have hsub := List.Pairwise.sublist (pyTake_sublist k _) hs
    refine hsub.imp ?_
    intro p q hpq
    rw [candSortKey_popularity, candSortKey_popularity]
    exact hpq
  · intro r hr
    rw [hrows] at hr
    obtain ⟨p, hp, rfl⟩ := List.mem_map.1 hr
    rfl

/-- Witness for C4 at the Scenario A statistics table with `top_k = 2`. -/
theorem claim_C4_witness :
    ((popularity_fallback statsA 2).rows.length : ℤ) ≤ 2 ∧
    (popularity_fallback statsA 2).rows.length ≤ statsA.rows.length ∧
    (popularity_fallback statsA 2).rows.Pairwise
      (fun a b => keyLe (candSortKey (popularity_fallback statsA 2) a)
        (candSortKey (popularity_fallback statsA 2) b) = true) ∧
    ∀ r ∈ (popularity_fallback statsA 2).rows, r.recomm_score = 0 :=
  claim_C4_popularity_ranker statsA 2 (by decide)

/-- C6: with the Scenario A statistics table (three products with
`pct_pos` 0.9, 0.5, 0.1) and no user-item matrix,
`get_final_recommendations("alice", 20, 2)` returns exactly the records
for P1 and P2 in that order, and every candidate row feeding those
records carries `recomm_score = 0.0`. -/
theorem claim_C6_scenarioA :
    get_final_recommendations artifactsA "alice" 20 2 =
      .ok [{ id := "P1", product_name := some "P1 name", avg_rating := none,
             n_ratings := 0, pct_pos := 9/10, mean_pos_prob := 0,
             blend := 27/100 },
           { id := "P2", product_name := some "P2 name", avg_rating := none,
             n_ratings := 0, pct_pos := 1/2, mean_pos_prob := 0,
             blend := 3/20 }] ∧
    (popularity_fallback artifactsA.stats 20).rows.all
      (fun r => r.recomm_score == 0) = true :=
  ⟨by with_unfolding_all rfl, by with_unfolding_all rfl⟩

/-- C3: for a known user with a non-empty rated-item set, every row of
the candidate frame is a non-rated item scored 0.0 when the sum of its
similarities to the rated items is zero and otherwise by the dot product
of those similarities with the ratings divided by the similarity sum plus
1e-9; and in Scenario B candidate B scores (0.8*5)/(0.8+1e-9) and ranks
above candidate C, which scores 0.0. -/
theorem claim_C3_similarity_scores :
    (∀ (a : Artifacts) (m : UserItem) (u : String) (row : List ℚ) (k : ℤ)
        (f : CandFrame),
      a.userItem = some m → m.find u = some row →
      ratedOf m row ≠ [] →
      get_top20_products a u k = .ok f →
      ∀ r ∈ f.rows,
        r.id ∉ ratedOf m row ∧
        r.recomm_score =
          (if ((ratedOf m row).map (fun i => a.itemSim.sim r.id i)).sum = 0
           then 0
           else
             dotQ ((ratedOf m row).map (fun i => a.itemSim.sim r.id i))
               ((ratedOf m row).map (fun i => ratingOf m row i)) /
             (((ratedOf m row).map (fun i => a.itemSim.sim r.id i)).sum
               + eps))) ∧
    get_top20_products artifactsB "bob" 20 = .ok
      { hasName := true, hasAvg := true, hasN := true,
        hasPct := false, hasMean := false,
        rows := [{ id := "B", product_name := none, avg_rating := none,
                   n_ratings := some 0, pct_pos := none,
                   mean_pos_prob := none,
                   recomm_score := 4000000000/800000001 },
                 { id := "C", product_name := none, avg_rating := none,
                   n_ratings := some 0, pct_pos := none,
                   mean_pos_prob := none, recomm_score := 0 }] } := by
  constructor
  · intro a m u row k f hm hu hne hf r hr
    rw [top20_known_eq a m u row k hm hu] at hf
    cases hmap : mapExcept (candRowOf a.stats) (rankedScores a m row k) with
    | error e =>
      simp only [hmap] at hf
      cases hf
    | ok rows =>
      simp only [hmap] at hf
      cases hf
      obtain ⟨p, hp, hpok⟩ := mapExcept_ok_mem hmap r hr
      obtain ⟨hid, hscore⟩ := candRowOf_ok hpok
      have hp2 : p ∈ scoresList a m row := by
        unfold rankedScores at hp
        exact mem_sortLe.1 (mem_of_mem_pyTake hp)
      obtain ⟨hcont, hval⟩ := mem_scoresList hp2
      have hemp : (ratedOf m row).isEmpty = false := by
        cases hrated : ratedOf m row
        · exact absurd hrated hne
        · rfl
      constructor
      · intro hmem
        have h2 : (ratedOf m row).contains r.id = true :=
          List.elem_eq_true_of_mem hmem
        rw [hid, hcont] at h2
        cases h2
      · rw [hscore, hval, hid, hemp]
        simp
  · with_unfolding_all rfl

/-- Witness for C3 at Scenario B, instantiated at the row for
candidate B. -/
theorem claim_C3_witness :
    ("B" : Pid) ∉ ratedOf userItemB [5] ∧
    (4000000000/800000001 : ℚ) =
      (if ((ratedOf userItemB [5]).map
            (fun i => artifactsB.itemSim.sim "B" i)).sum = 0
       then 0
       else
         dotQ ((ratedOf userItemB [5]).map
             (fun i => artifactsB.itemSim.sim "B" i))
           ((ratedOf userItemB [5]).map (fun i => ratingOf userItemB [5] i)) /
         (((ratedOf userItemB [5]).map
             (fun i => artifactsB.itemSim.sim "B" i)).sum + eps)) :=
  claim_C3_similarity_scores.1 artifactsB userItemB "bob" [5] 20
    { hasName := true, hasAvg := true, hasN := true,
      hasPct := false, hasMean := false,
      rows := [{ id := "B", product_name := none, avg_rating := none,
                 n_ratings := some 0, pct_pos := none,
                 mean_pos_prob := none,
                 recomm_score := 4000000000/800000001 },
               { id := "C", product_name := none, avg_rating := none,
                 n_ratings := some 0, pct_pos := none,
                 mean_pos_prob := none, recomm_score := 0 }] }
    rfl (by with_unfolding_all rfl)
    (by
      rw [show ratedOf userItemB [5] = ["A"] from by with_unfolding_all rfl]
      simp)
    (by with_unfolding_all rfl)
    { id := "B", product_name := none, avg_rating := none,
      n_ratings := some 0, pct_pos := none, mean_pos_prob := none,
      recomm_score := 4000000000/800000001 }
    (List.mem_cons_self _ _)

theorem candRowOf_total {st : ProductStats}
    (hwf : st.hasN = true → ∀ q ∈ st.rows, q.2.n_ratings ≠ none)
    (p : Pid × ℚ) : ∃ cr, candRowOf st p = .ok cr := by
  cases hl : st.lookup p.1 with
  | none =>
    refine ⟨{ id := p.1, product_name := none, avg_rating := none,
              n_ratings := some 0, pct_pos := none, mean_pos_prob := none,
              recomm_score := p.2 }, ?_⟩
    simp only [candRowOf, hl]
  | some meta =>
    cases hcell : (if st.hasN then meta.n_ratings else some 0 : Option ℚ)
      with
    | none =>
      cases hsn : st.hasN with
      | false =>
        rw [hsn] at hcell
        simp at hcell
      | true =>
        rw [hsn] at hcell
        simp only [if_pos] at hcell
        exact absurd (by simpa using hcell)
          (hwf hsn (p.1, meta) (lookup_some_mem hl))
    | some nv =>
      refine ⟨{ id := p.1
                product_name := if st.hasName then meta.product_name
                  else none
                avg_rating := if st.hasAvg then meta.avg_rating else none
                n_ratings := some ((pyInt nv : ℤ) : ℚ)
                pct_pos := none, mean_pos_prob := none
                recomm_score := p.2 }, ?_⟩
      simp only [candRowOf, hl, hcell]

/-- C7: for every username (the empty string included) and every positive
`top_k`, `get_top20_products` returns an ordered list rather than a
fault: the absent matrix, an unknown user, an empty rated set, a
candidate absent from the statistics table and a zero similarity sum are
all handled; the hypothesis rules out the one unrelated fault the code
can hit, `int(NaN)` on a `NaN` `n_ratings` cell. -/
theorem claim_C7_never_raises (a : Artifacts)
    (hwf : a.stats.hasN = true → ∀ q ∈ a.stats.rows, q.2.n_ratings ≠ none)
    (u : String) (k : ℤ) (hk : 0 < k) :
    ∃ f, get_top20_products a u k = .ok f := by
  unfold get_top20_products
  cases a.userItem with
  | none => exact ⟨_, rfl⟩
  | some m =>
    show ∃ f, (match m.find u with
      | none => Except.ok (popularity_fallback a.stats k)
      | some row =>
        match mapExcept (candRowOf a.stats) (rankedScores a m row k) with
        | Except.error e => Except.error e
        | Except.ok rows => Except.ok
          { hasName := true, hasAvg := true, hasN := true,
            hasPct := false, hasMean := false, rows := rows }) = .ok f
    cases m.find u with
    | none => exact ⟨_, rfl⟩
    | some row =>
      obtain ⟨rows, hrows⟩ := @mapExcept_ok_of_forall (Pid × ℚ) String
        CandRow (candRowOf a.stats) (rankedScores a m row k)
        (fun p _ => candRowOf_total hwf p)
      refine ⟨{ hasName := true, hasAvg := true, hasN := true,
                hasPct := false, hasMean := false, rows := rows }, ?_⟩
      show ((match mapExcept (candRowOf a.stats) (rankedScores a m row k)
        with
        | Except.error e => Except.error e
        | Except.ok rs => Except.ok
          { hasName := true, hasAvg := true, hasN := true,
            hasPct := false, hasMean := false,
            rows := rs }) : Except String CandFrame) =
        Except.ok { hasName := true, hasAvg := true, hasN := true,
                    hasPct := false, hasMean := false, rows := rows }
      rw [hrows]

/-- Witness for C7: the empty username against the Scenario A snapshot. -/
theorem claim_C7_witness :
    ∃ f, get_top20_products artifactsA "" 3 = .ok f :=
  claim_C7_never_raises artifactsA (by decide) "" 3 (by decide)

/-- Counterexample to C5 as stated: with the Scenario A snapshot (the
statistics table has a `pct_pos` column and the matrix is absent), the
candidate frame does carry `pct_pos`, and the overlap-drop of model.py
line 124 fires (it drops `pct_pos` from the statistics side). -/
theorem claim_C5_counterexample :
    (get_top20_products artifactsA "alice" 20).toOption.map
        (fun f => (f.hasPct, overlapCols artifactsA.stats f)) =
      some (true, ["pct_pos"]) := by
  with_unfolding_all rfl

theorem pop_merged_sent (st : ProductStats) (k : ℤ)
    (hkeys : (st.rows.map Prod.fst).Nodup) :
    ∀ x ∈ mergedRows st (popularity_fallback st k),
      x.pct_pos = (if st.hasPct
        then ((st.lookup x.id).bind (fun s => s.pct_pos)).getD 0 else 0) ∧
      x.mean_pos_prob = (if st.hasMean
        then ((st.lookup x.id).bind (fun s => s.mean_pos_prob)).getD 0
        else 0) := by
  intro x hx
  obtain ⟨cr, hcr, rfl⟩ := List.mem_map.1 hx
  obtain ⟨p, hp, rfl⟩ := List.mem_map.1 hcr
  have hpmem : (p.1, p.2) ∈ st.rows := mem_sortLe.1 (mem_of_mem_pyTake hp)
  have hlook : st.lookup p.1 = some p.2 := lookup_of_mem_nodup hkeys hpmem
  constructor
  · cases hpct : st.hasPct with
    | false =>
      simp [mergedRowOf, mergedPct, popularity_fallback, popRowOf, hpct]
    | true =>
      simp [mergedRowOf, mergedPct, popularity_fallback, popRowOf, hpct,
        hlook]
  · cases hmean : st.hasMean with
    | false =>
      simp [mergedRowOf, mergedMean, popularity_fallback, popRowOf, hmean]
    | true =>
      simp [mergedRowOf, mergedMean, popularity_fallback, popRowOf, hmean,
        hlook]

/-- C5 amended: on the personalized path the candidate frame carries
neither sentiment column; on the fallback path it carries exactly the
sentiment columns the statistics table has (so the overlap-drop then
fires and discards the statistics copy); in every case the `pct_pos` and
`mean_pos_prob` values entering the blend equal the statistics-table
values for the candidate id, with a missing row or cell giving 0.0. -/
theorem claim_C5_sentiment_provenance (a : Artifacts) (u : String)
    (k : ℤ) (f : CandFrame)
    (hkeys : (a.stats.rows.map Prod.fst).Nodup)
    (hf : get_top20_products a u k = .ok f) :
    ((∀ m row, a.userItem = some m → m.find u = some row →
        f.hasPct = false ∧ f.hasMean = false) ∧
     ((a.userItem = none ∨ ∃ m, a.userItem = some m ∧ m.find u = none) →
        f.hasPct = a.stats.hasPct ∧ f.hasMean = a.stats.hasMean)) ∧
    ∀ x ∈ mergedRows a.stats f,
      x.pct_pos = (if a.stats.hasPct
        then ((a.stats.lookup x.id).bind (fun s => s.pct_pos)).getD 0
        else 0) ∧
      x.mean_pos_prob = (if a.stats.hasMean
        then ((a.stats.lookup x.id).bind (fun s => s.mean_pos_prob)).getD 0
        else 0) := by
  cases hui : a.userItem with
  | none =>
    rw [top20_unknown_eq a u k (Or.inl hui)] at hf
    cases hf
    refine ⟨⟨?_, fun _ => ⟨rfl, rfl⟩⟩, pop_merged_sent a.stats k hkeys⟩
    intro m row hm hrow
    cases hm
  | some m =>
    cases hfind : m.find u with
    | none =>
      rw [top20_unknown_eq a u k (Or.inr ⟨m, hui, hfind⟩)] at hf
      cases hf
      refine ⟨⟨?_, fun _ => ⟨rfl, rfl⟩⟩, pop_merged_sent a.stats k hkeys⟩
      intro m2 row hm2 hrow
      cases hm2
      rw [hfind] at hrow
      cases hrow
    | some row =>
      rw [top20_known_eq a m u row k hui hfind] at hf
      cases hmap : mapExcept (candRowOf a.stats) (rankedScores a m row k)
        with
      | error e =>
        simp only [hmap] at hf
        cases hf
      | ok rows =>
        simp only [hmap] at hf
        cases hf
        refine ⟨⟨fun _ _ _ _ => ⟨rfl, rfl⟩, ?_⟩, ?_⟩
        · intro hcase
          rcases hcase with h | ⟨m2, hm2, hfind2⟩
          · cases h
          · cases hm2
            rw [hfind] at hfind2
            cases hfind2
        · intro x hx
          obtain ⟨cr, hcr, rfl⟩ := List.mem_map.1 hx
          exact ⟨rfl, rfl⟩

/-- Witness for the amended C5 at the Scenario A snapshot (fallback
path). -/
theorem claim_C5_witness :
    ((∀ m row, artifactsA.userItem = some m →
        m.find "alice" = some row →
        (popularity_fallback artifactsA.stats 20).hasPct = false ∧
        (popularity_fallback artifactsA.stats 20).hasMean = false) ∧
     ((artifactsA.userItem = none ∨
        ∃ m, artifactsA.userItem = some m ∧ m.find "alice" = none) →
        (popularity_fallback artifactsA.stats 20).hasPct =
          artifactsA.stats.hasPct ∧
        (popularity_fallback artifactsA.stats 20).hasMean =
          artifactsA.stats.hasMean)) ∧
    ∀ x ∈ mergedRows artifactsA.stats
        (popularity_fallback artifactsA.stats 20),
      x.pct_pos = (if artifactsA.stats.hasPct
        then ((artifactsA.stats.lookup x.id).bind
          (fun s => s.pct_pos)).getD 0
        else 0) ∧
      x.mean_pos_prob = (if artifactsA.stats.hasMean
        then ((artifactsA.stats.lookup x.id).bind
          (fun s => s.mean_pos_prob)).getD 0
        else 0) :=
  claim_C5_sentiment_provenance artifactsA "alice" 20
    (popularity_fallback artifactsA.stats 20) (by decide)
    (by with_unfolding_all rfl)

/-- C8: a record whose id has no statistics row is still delivered: its
`avg_rating` is null, its `n_ratings` is 0, its sentiment fields default
to 0.0, and its blend is 0.6 times the candidate score it kept from the
generator. -/
theorem claim_C8_missing_metadata (a : Artifacts) (u : String)
    (k1 k2 : ℤ) (f : CandFrame) (recs : List FinalRec)
    (hf : get_top20_products a u k1 = .ok f)
    (hok : get_final_recommendations a u k1 k2 = .ok recs) :
    ∀ r ∈ recs, a.stats.lookup r.id = none →
      r.avg_rating = none ∧ r.n_ratings = 0 ∧ r.pct_pos = 0 ∧
      r.mean_pos_prob = 0 ∧
      ∃ cr ∈ f.rows, cr.id = r.id ∧ r.blend = 0.6 * cr.recomm_score := by
  rw [get_final_eq a u k1 k2 f hf] at hok
  cases hok
  intro r hr hnone
  obtain ⟨mr, hmr, rfl⟩ := List.mem_map.1 hr
  have hmr2 := mem_ratedSetFilter (mem_of_mem_pyTake hmr)
  have hmr3 := mem_sortLe.1 hmr2
  obtain ⟨cr, hcr, rfl⟩ := List.mem_map.1 hmr3
  unfold get_top20_products at hf
  cases hui : a.userItem with
  | none =>
    simp only [hui] at hf
    cases hf
    obtain ⟨p, hp, rfl⟩ := List.mem_map.1 hcr
    have hpmem : (p.1, p.2) ∈ a.stats.rows :=
      mem_sortLe.1 (mem_of_mem_pyTake hp)
    exact absurd hnone (lookup_ne_none_of_mem hpmem)
  | some m =>
    cases hfind : m.find u with
    | none =>
      simp only [hui, hfind] at hf
      cases hf
      obtain ⟨p, hp, rfl⟩ := List.mem_map.1 hcr
      have hpmem : (p.1, p.2) ∈ a.stats.rows :=
        mem_sortLe.1 (mem_of_mem_pyTake hp)
      exact absurd hnone (lookup_ne_none_of_mem hpmem)
    | some row =>
      simp only [hui, hfind] at hf
      cases hmap : mapExcept (candRowOf a.stats) (rankedScores a m row k1)
        with
      | error e =>
        simp only [hmap] at hf
        cases hf
      | ok rows =>
        simp only [hmap] at hf
        cases hf
        obtain ⟨p, hp, hpok⟩ := mapExcept_ok_mem hmap cr hcr
        have hid := (candRowOf_ok hpok).1
        have hlp : a.stats.lookup p.1 = none := by
          rw [← hid]
          exact hnone
        unfold candRowOf at hpok
        simp only [hlp] at hpok
        cases hpok
        refine ⟨rfl, ?_, ?_, ?_, ?_⟩
        · simp [finalRecOf, mergedRowOf, pyInt]
        · simp [finalRecOf, mergedRowOf, mergedPct, hlp]
        · simp [finalRecOf, mergedRowOf, mergedMean, hlp]
        · refine ⟨_, hcr, rfl, ?_⟩
          simp [finalRecOf, mergedRowOf, mergedPct, mergedMean, hlp]

/-- Witness for C8 at the Scenario C snapshot: candidate D has no
statistics row and is still delivered with default metadata. -/
theorem claim_C8_witness :
    ({ id := "D", product_name := none, avg_rating := none, n_ratings := 0,
       pct_pos := 0, mean_pos_prob := 0,
       blend := 500000000/166666667 } : FinalRec).avg_rating = none ∧
    ({ id := "D", product_name := none, avg_rating := none, n_ratings := 0,
       pct_pos := 0, mean_pos_prob := 0,
       blend := 500000000/166666667 } : FinalRec).n_ratings = 0 ∧
    ({ id := "D", product_name := none, avg_rating := none, n_ratings := 0,
       pct_pos := 0, mean_pos_prob := 0,
       blend := 500000000/166666667 } : FinalRec).pct_pos = 0 ∧
    ({ id := "D", product_name := none, avg_rating := none, n_ratings := 0,
       pct_pos := 0, mean_pos_prob := 0,
       blend := 500000000/166666667 } : FinalRec).mean_pos_prob = 0 ∧
    ∃ cr ∈ ({ hasName := true, hasAvg := true, hasN := true,
              hasPct := false, hasMean := false,
              rows := [{ id := "D", product_name := none,
                         avg_rating := none, n_ratings := some 0,
                         pct_pos := none, mean_pos_prob := none,
                         recomm_score :=
                           2500000000/500000001 }] } : CandFrame).rows,
      cr.id = ({ id := "D", product_name := none, avg_rating := none,
                 n_ratings := 0, pct_pos := 0, mean_pos_prob := 0,
                 blend := 500000000/166666667 } : FinalRec).id ∧
      ({ id := "D", product_name := none, avg_rating := none,
         n_ratings := 0, pct_pos := 0, mean_pos_prob := 0,
         blend := 500000000/166666667 } : FinalRec).blend =
        0.6 * cr.recomm_score :=
  claim_C8_missing_metadata artifactsC "bob" 20 5
    { hasName := true, hasAvg := true, hasN := true,
      hasPct := false, hasMean := false,
      rows := [{ id := "D", product_name := none, avg_rating := none,
                 n_ratings := some 0, pct_pos := none,
                 mean_pos_prob := none,
                 recomm_score := 2500000000/500000001 }] }
    [{ id := "D", product_name := none, avg_rating := none, n_ratings := 0,
       pct_pos := 0, mean_pos_prob := 0, blend := 500000000/166666667 }]
    (by with_unfolding_all rfl) (by with_unfolding_all rfl)
    { id := "D", product_name := none, avg_rating := none, n_ratings := 0,
      pct_pos := 0, mean_pos_prob := 0, blend := 500000000/166666667 }
    (List.mem_cons_self _ _) (by with_unfolding_all rfl)

end Ebuss
